import Mathlib

/-!
Shallow embedding of the `tcp-chat-server` matching pipeline.

Sources embedded:
* `src/models.rs` — wire codec: `Product`, `Side`, `Order`, `ClientId`,
  `Login`, `OrderAck`, `Trade`, their `FromStr` parsers and `Encode`
  implementations.
* `src/matcher.rs` — the count-based matching engine.
* `src/server.rs` — the Acceptor/Coordinator: `handle_decoder_event`
  and the biased select of the `run` loop.
* `src/decoder.rs` — the per-client line-decode loop
  (`next_message_client`).
* The Encode Stage of the matching pipeline is not present in `src/`
  (`src/encoder.rs` is the legacy chat variant, lacking the
  `ClientDisconnected`/`OrderAck`/`Match` control events that
  `src/server.rs` sends); it is modelled from the spec where noted.

Modelling conventions: Rust `u32`/`u16` counters are modelled as `Nat`
(the checked Rust increment aborts on overflow, so states past the
machine range are not modelled); `anyhow::Result` is `Option`
(`none` = error); the `HashMap<Product, Book>` with lazy zero-default
insertion is modelled extensionally as a total function with zero
default; socket buffers are modelled as the string written so far.
-/

namespace TcpServer

/-- The five tradable products (src/models.rs, `enum Product`). -/
inductive Product where
  | Apples
  | Pears
  | Tomatoes
  | Potatoes
  | Onions
deriving DecidableEq, Fintype

/-- src/models.rs, `impl FromStr for Product`: equality dispatch on the
token; any other token is an error (`none`). -/
def Product.from_str (s : String) : Option Product :=
  if s = "APPLE" then some .Apples
  else if s = "PEAR" then some .Pears
  else if s = "TOMATO" then some .Tomatoes
  else if s = "POTATO" then some .Potatoes
  else if s = "ONION" then some .Onions
  else none

/-- src/models.rs, `impl ToString for Product`. -/
def Product.to_string : Product → String
  | .Apples => "APPLE"
  | .Pears => "PEAR"
  | .Tomatoes => "TOMATO"
  | .Potatoes => "POTATO"
  | .Onions => "ONION"

/-- Order side (src/models.rs, `enum Side`). -/
inductive Side where
  | Buy
  | Sell
deriving DecidableEq, Fintype

/-- src/models.rs, `impl FromStr for Side`. -/
def Side.from_str (s : String) : Option Side :=
  if s = "BUY" then some .Buy
  else if s = "SELL" then some .Sell
  else none

/-- The wire token of a side: exactly the token recognized by
`Side::from_str` (the source has no `ToString for Side`; this names the
token set for the round-trip statements). -/
def Side.token : Side → String
  | .Buy => "BUY"
  | .Sell => "SELL"

/-- An inbound order (src/models.rs, `struct Order`). -/
structure Order where
  side : Side
  product : Product
deriving DecidableEq

/-- Rust `str::split(':')` over the characters of the line: the maximal
colon-free substrings, in order. An empty input yields one empty token,
`"a:"` yields `["a", ""]`, `":"` yields `["", ""]` — exactly the Rust
iterator's semantics. Structurally recursive so that concrete inputs
evaluate. -/
def splitColon : List Char → List (List Char)
  | [] => [[]]
  | c :: rest =>
    let r := splitColon rest
    if c = ':' then [] :: r
    else
      match r with
      | [] => [[c]]
      | t :: ts => (c :: t) :: ts

/-- The colon-delimited tokens of a line, as strings. -/
def tokens (s : String) : List String :=
  (splitColon s.data).map (fun cs => String.mk cs)

/-- src/models.rs, `impl FromStr for Order`: `s.split(':')`, take the
first token as the side and the second as the product; tokens past the
second are never examined. `split` always yields at least one token, so
the "without side" error branch of the source is unreachable; "without
product" fires when there is exactly one token. -/
def Order.from_str (s : String) : Option Order :=
  match tokens s with
  | [] => none
  | side :: rest =>
    match rest with
    | [] => none
    | product :: _ =>
      match Side.from_str side, Product.from_str product with
      | some sd, some pr => some ⟨sd, pr⟩
      | _, _ => none

/-- Client identifier (src/models.rs, `struct ClientId(u16)`). -/
structure ClientId where
  id : Nat
deriving DecidableEq

/-- src/models.rs, `struct Login`. -/
structure Login where
  client_id : ClientId
deriving DecidableEq

/-- src/models.rs, `struct OrderAck`. -/
structure OrderAck where
  product : Product
deriving DecidableEq

/-- src/models.rs, `struct Trade`. -/
structure Trade where
  product : Product
deriving DecidableEq

/-- One `write` of a text piece into the output buffer, as performed by
the `Encode` impls in src/models.rs: the buffer (1024 bytes, larger than
every message) receives the whole piece and the returned byte count —
the piece's UTF-8 size — is added to the running `length`. -/
def writePiece (buf : String × Nat) (piece : String) : String × Nat :=
  (buf.1 ++ piece, buf.2 + piece.utf8ByteSize)

/-- src/models.rs, `impl Encode for Login`: writes `b"LOGIN:"`, the
decimal client id (`u16::to_string`), then the newline; returns the
buffer contents and the accumulated length. -/
def Login.encode (l : Login) : String × Nat :=
  writePiece (writePiece (writePiece ("", 0) "LOGIN:") (Nat.repr l.client_id.id)) "\n"

/-- src/models.rs, `impl Encode for OrderAck`: `b"ACK:"`, the product
token, newline. -/
def OrderAck.encode (a : OrderAck) : String × Nat :=
  writePiece (writePiece (writePiece ("", 0) "ACK:") a.product.to_string) "\n"

/-- src/models.rs, `impl Encode for Trade`: `b"TRADE:"`, the product
token, newline. -/
def Trade.encode (t : Trade) : String × Nat :=
  writePiece (writePiece (writePiece ("", 0) "TRADE:") t.product.to_string) "\n"

/-- Per-product resting counts (src/matcher.rs, `struct Book` of two
`OrderCount(u32)` fields, modelled as `Nat`). -/
structure Book where
  buys : Nat
  sells : Nat
deriving DecidableEq

/-- A produced match (src/matcher.rs, `struct Match`). -/
structure Match where
  product : Product
deriving DecidableEq

/-- src/matcher.rs, `struct Matcher`: `HashMap<Product, Book>` whose
entries are created zero-initialized on first access (`get_book` uses
`entry(..).or_insert_with(zero)`), modelled extensionally as a total
function with zero default. -/
structure Matcher where
  books : Product → Book

/-- src/matcher.rs, `Matcher::new`: no book has ever been touched, so
every product reads as the zero book. -/
def Matcher.new : Matcher := ⟨fun _ => ⟨0, 0⟩⟩

/-- Writing back the (in Rust: in-place, via `&mut Book`) updated book
of one product. -/
def Matcher.set_book (m : Matcher) (p : Product) (b : Book) : Matcher :=
  ⟨fun q => if q = p then b else m.books q⟩

/-- src/matcher.rs, `Matcher::add_buy`: if the product's book has a
positive sell count, consume one sell and produce a `Match`; otherwise
add one resting buy and produce nothing. -/
def Matcher.add_buy (m : Matcher) (product : Product) : Option Match × Matcher :=
  let book := m.books product
  if 0 < book.sells then
    (some ⟨product⟩, m.set_book product ⟨book.buys, book.sells - 1⟩)
  else
    (none, m.set_book product ⟨book.buys + 1, book.sells⟩)

/-- src/matcher.rs, `Matcher::add_sell`: symmetric to `add_buy`. -/
def Matcher.add_sell (m : Matcher) (product : Product) : Option Match × Matcher :=
  let book := m.books product
  if 0 < book.buys then
    (some ⟨product⟩, m.set_book product ⟨book.buys - 1, book.sells⟩)
  else
    (none, m.set_book product ⟨book.buys, book.sells + 1⟩)

/-- The engine invocation as the Acceptor performs it
(src/server.rs, the `match order.side` dispatch). -/
def Matcher.apply (m : Matcher) (sd : Side) (p : Product) : Option Match × Matcher :=
  match sd with
  | .Buy => m.add_buy p
  | .Sell => m.add_sell p

/-- Running a finite sequence of orders through the engine, starting
from a given state. -/
def Matcher.run_ops (m : Matcher) : List (Side × Product) → Matcher
  | [] => m
  | op :: rest => ((m.apply op.1 op.2).2).run_ops rest

/-- Events emitted by the Decode Stage (src/decoder.rs,
`enum DecoderEvent`). -/
inductive DecoderEvent where
  | ClientDisconnected (client_id : ClientId)
  | Order (client_id : ClientId) (order : Order)
deriving DecidableEq

/-- Control events the Acceptor sends to the Encode Stage. The variants
are the ones src/server.rs constructs (`ClientDisconnected`, `OrderAck`,
`Match`) plus the `ClientAdded` registration from
`Server::handle_new_client`; the read/write socket halves carried by
the Rust variants are not modelled (the Encode Stage model below keeps
the written lines instead). -/
inductive EncoderTaskControl where
  | ClientAdded (client_id : ClientId)
  | ClientDisconnected (client_id : ClientId)
  | OrderAck (client_id : ClientId) (ack : OrderAck)
  | Match (trade : Match)
deriving DecidableEq

/-- src/server.rs, `Server::handle_decoder_event`: a disconnect is
forwarded; an order first yields an unconditional `OrderAck` to its
client, then the engine is invoked, and a `Match` is forwarded exactly
when the engine produced one. Result: the new matcher state and the
control events sent to the Encode Stage, in send order. -/
def Server.handle_decoder_event (matcher : Matcher) (msg : DecoderEvent) :
    Matcher × List EncoderTaskControl :=
  match msg with
  | .ClientDisconnected client_id => (matcher, [.ClientDisconnected client_id])
  | .Order client_id order =>
    let ack : EncoderTaskControl := .OrderAck client_id ⟨order.product⟩
    let res :=
      match order.side with
      | .Buy => matcher.add_buy order.product
      | .Sell => matcher.add_sell order.product
    match res with
    | (some t, m2) => (m2, [ack, .Match t])
    | (none, m2) => (m2, [ack])

/-- Readiness of the three arms of the `tokio::select!` in
`Server::run` (src/server.rs) at the start of one loop turn: a decode
event available on the channel, the cancellation token cancelled, and
an inbound connection waiting on the listener. -/
structure ServerLoopReady where
  decoder_event : Option DecoderEvent
  cancelled : Bool
  connection : Bool
deriving DecidableEq

/-- What one turn of the Acceptor loop does. -/
inductive ServerTurn where
  | HandleEvent (e : DecoderEvent)
  | Exit
  | AcceptConnection
  | Idle
deriving DecidableEq

/-- src/server.rs, `Server::run`: the select is `biased`, so its arms
are polled in the listed order — the decoder-event arm FIRST, the
cancellation arm second, the accept arm last. A ready decode event is
therefore handled even when cancellation is already requested; the loop
exits (`return Ok(())`) when cancellation is observed and no decode
event is ready, without accepting a waiting connection. -/
def Server.select_turn (r : ServerLoopReady) : ServerTurn :=
  match r.decoder_event with
  | some e => .HandleEvent e
  | none =>
    if r.cancelled then .Exit
    else if r.connection then .AcceptConnection
    else .Idle

/-- Outcome of one decode attempt for one client (src/decoder.rs,
`enum ClientDecodeResult`; the socket-error case, which downstream is
treated exactly like a disconnect, is folded into `ClientDisconnected`). -/
inductive ClientDecodeResult where
  | Ok (o : Order)
  | ClientDisconnected
deriving DecidableEq

/-- src/decoder.rs, `Decoder::next_message_client`: read lines in a
loop; a line that fails `Order::from_str` is logged and skipped
(`continue`), end of stream is a disconnect. The client's pending line
stream is modelled as the list of its remaining lines; the result is
paired with the stream left unread. -/
def Decoder.next_message_client : List String → ClientDecodeResult × List String
  | [] => (.ClientDisconnected, [])
  | line :: rest =>
    match Order.from_str line with
    | some o => (.Ok o, rest)
    | none => Decoder.next_message_client rest

/-- Modelled from the spec: the Encode Stage of the matching pipeline is
missing from src/ (src/encoder.rs is the legacy chat variant; it lacks
the `ClientDisconnected`/`OrderAck`/`Match` events that src/server.rs
sends). Per spec §4.4 the stage's state is a mapping from `ClientId` to
an open write sink; modelled as the registered clients in registration
order, each with the sequence of encoded lines written to it so far. -/
structure EncoderState where
  clients : List (ClientId × List String)
deriving DecidableEq

/-- Whether a client id is currently registered in the write-side map. -/
def EncoderState.registered (e : EncoderState) (id : ClientId) : Bool :=
  e.clients.any (fun c => c.1 = id)

/-- Modelled from the spec (§4.4): handle one control event. Returns the
new state and whether the operation failed as a single-operation
failure. `ClientAdded` sends `Login` before registering (the login
write is assumed to succeed — transport faults are not modelled);
`ClientDisconnected` deregisters; `OrderAck` writes to the addressed
client, an unregistered id being a reportable addressing error that
leaves the state unchanged; `Match` writes the trade encoding to every
currently registered client. -/
def EncoderState.handle_message (e : EncoderState) (msg : EncoderTaskControl) :
    EncoderState × Bool :=
  match msg with
  | .ClientAdded id =>
    (⟨e.clients ++ [(id, [(Login.encode ⟨id⟩).1])]⟩, false)
  | .ClientDisconnected id =>
    (⟨e.clients.filter (fun c => c.1 ≠ id)⟩, false)
  | .OrderAck id ack =>
    if e.registered id then
      (⟨e.clients.map (fun c => if c.1 = id then (c.1, c.2 ++ [(OrderAck.encode ack).1]) else c)⟩,
        false)
    else
      (e, true)
  | .Match t =>
    (⟨e.clients.map (fun c => (c.1, c.2 ++ [(Trade.encode ⟨t.product⟩).1]))⟩, false)

/-- Modelled from the spec (§4.4, §7): the stage's loop processes every
control message in order; a single-operation failure is reported (here:
counted) but does not terminate the loop. Returns the final state and
the number of reported failures. -/
def EncoderState.run : EncoderState → List EncoderTaskControl → EncoderState × Nat
  | e, [] => (e, 0)
  | e, msg :: rest =>
    let step := e.handle_message msg
    let res := EncoderState.run step.1 rest
    (res.1, (if step.2 then 1 else 0) + res.2)

/-- The three-client broadcast scenario of the spec: clients 1, 2 and 3
registered with empty output; client 1's SELL:PEAR order and then
client 2's BUY:PEAR order are routed through the Acceptor
(`Server.handle_decoder_event`, engine included) and the resulting
control events are handled by the Encode Stage model in send order. -/
def broadcast_scenario : EncoderState :=
  let s1 := Server.handle_decoder_event Matcher.new (.Order ⟨1⟩ ⟨.Sell, .Pears⟩)
  let s2 := Server.handle_decoder_event s1.1 (.Order ⟨2⟩ ⟨.Buy, .Pears⟩)
  (EncoderState.run ⟨[(⟨1⟩, []), (⟨2⟩, []), (⟨3⟩, [])]⟩ (s1.2 ++ s2.2)).1

/-! ### Helper lemmas -/

/-- Reading back the book just written. -/
theorem Matcher.books_set_book_self (m : Matcher) (p : Product) (b : Book) :
    (m.set_book p b).books p = b := by
  simp [Matcher.set_book]

/-- Writing one product's book leaves every other book unchanged. -/
theorem Matcher.books_set_book_other (m : Matcher) (p : Product) (b : Book)
    (q : Product) (h : q ≠ p) : (m.set_book p b).books q = m.books q := by
  simp [Matcher.set_book, h]

/-- The engine's one-sided-book property: for every product, at least
one of the two resting counts is zero. -/
def Matcher.one_sided (m : Matcher) : Prop :=
  ∀ p : Product, (m.books p).buys = 0 ∨ (m.books p).sells = 0

/-- One engine invocation preserves the one-sided-book property. -/
theorem Matcher.one_sided_apply (m : Matcher) (sd : Side) (p : Product)
    (h : m.one_sided) : ((m.apply sd p).2).one_sided := by
  intro q
  by_cases hq : q = p
  · subst hq
    cases sd <;>
      simp only [Matcher.apply, Matcher.add_buy, Matcher.add_sell] <;>
      split <;>
      simp only [Matcher.books_set_book_self] <;>
      rcases h q with h0 | h0 <;> omega
  · cases sd <;>
      simp only [Matcher.apply, Matcher.add_buy, Matcher.add_sell] <;>
      split <;>
      simp only [Matcher.books_set_book_other _ _ _ _ hq] <;>
      exact h q

/-- Any finite run of engine invocations preserves the one-sided-book
property. -/
theorem Matcher.one_sided_run_ops (ops : List (Side × Product)) :
    ∀ m : Matcher, m.one_sided → (m.run_ops ops).one_sided := by
  induction ops with
  | nil => intro m h; exact h
  | cons op rest ih =>
    intro m h
    exact ih _ (Matcher.one_sided_apply m op.1 op.2 h)

/-! ### Claim theorems -/

/-- Claim C1: starting from a new `Matcher`, after any finite sequence
of `add_buy`/`add_sell` calls (in any order, over any products), every
product's book satisfies `buys == 0` or `sells == 0` — a positive buy
count and a positive sell count for the same product never coexist. -/
theorem matcher_one_sided_after_any_ops (ops : List (Side × Product)) (p : Product) :
    ((Matcher.new.run_ops ops).books p).buys = 0 ∨
      ((Matcher.new.run_ops ops).books p).sells = 0 :=
  Matcher.one_sided_run_ops ops Matcher.new (fun _ => Or.inl rfl) p

/-- Claim C2: `add_buy` consults the (lazily zero-created) book of the
product — if its sell count is positive it consumes one sell and
returns a `Match` for that product, otherwise it adds one buy and
returns none; `add_sell` is symmetric against the buy count. From an
empty matcher, `add_sell Apples` returns none leaving `Book 0 1`, and a
following `add_buy Apples` returns the trade leaving `Book 0 0`. -/
theorem apply_postcondition :
    (∀ m : Matcher, ∀ p : Product,
      (0 < (m.books p).sells →
        m.add_buy p = (some ⟨p⟩, m.set_book p ⟨(m.books p).buys, (m.books p).sells - 1⟩)) ∧
      ((m.books p).sells = 0 →
        m.add_buy p = (none, m.set_book p ⟨(m.books p).buys + 1, (m.books p).sells⟩)) ∧
      (0 < (m.books p).buys →
        m.add_sell p = (some ⟨p⟩, m.set_book p ⟨(m.books p).buys - 1, (m.books p).sells⟩)) ∧
      ((m.books p).buys = 0 →
        m.add_sell p = (none, m.set_book p ⟨(m.books p).buys, (m.books p).sells + 1⟩))) ∧
    ((Matcher.new.add_sell .Apples).1 = none ∧
      (Matcher.new.add_sell .Apples).2.books .Apples = ⟨0, 1⟩ ∧
      ((Matcher.new.add_sell .Apples).2.add_buy .Apples).1 = some ⟨.Apples⟩ ∧
      ((Matcher.new.add_sell .Apples).2.add_buy .Apples).2.books .Apples = ⟨0, 0⟩) := by
  constructor
  · intro m p
    refine ⟨fun h => ?_, fun h => ?_, fun h => ?_, fun h => ?_⟩ <;>
      simp [Matcher.add_buy, Matcher.add_sell, h]
  · exact ⟨by decide, by decide, by decide, by decide⟩

/-- Closed instance of the C2 postcondition: the empty book of a fresh
matcher has no resting sells, so a first buy rests. -/
theorem apply_postcondition_witness :
    (Matcher.new.books .Apples).sells = 0 ∧
    Matcher.new.add_buy .Apples =
      (none, Matcher.new.set_book .Apples
        ⟨(Matcher.new.books .Apples).buys + 1, (Matcher.new.books .Apples).sells⟩) :=
  ⟨rfl, (apply_postcondition.1 Matcher.new .Apples).2.1 rfl⟩

/-- Claim C10: an `add_buy`/`add_sell` call for product `p` leaves the
book of every other product exactly unchanged. -/
theorem add_frame (m : Matcher) (p q : Product) (h : q ≠ p) :
    (m.add_buy p).2.books q = m.books q ∧ (m.add_sell p).2.books q = m.books q := by
  constructor <;>
    · simp only [Matcher.add_buy, Matcher.add_sell]
      split <;> exact Matcher.books_set_book_other _ _ _ _ h

/-- Closed instance of the C10 frame property at a concrete state. -/
theorem add_frame_witness :
    Product.Pears ≠ Product.Apples ∧
    ((Matcher.new.add_buy .Apples).2.books .Pears = Matcher.new.books .Pears ∧
      (Matcher.new.add_sell .Apples).2.books .Pears = Matcher.new.books .Pears) :=
  ⟨by decide, add_frame Matcher.new .Apples .Pears (by decide)⟩

/-- Claim C5: for every `Order(id, order)` decode event, the Acceptor
first forwards the `OrderAck` for `id` (carrying the order's product)
unconditionally, then invokes the engine with the order's side and
product, and the remaining forwarded events are a `Match` exactly when
the engine returned a trade. -/
theorem handle_order_event (m : Matcher) (id : ClientId) (o : Order) :
    (Server.handle_decoder_event m (.Order id o)).2.head? =
      some (.OrderAck id ⟨o.product⟩) ∧
    (Server.handle_decoder_event m (.Order id o)).1 = (m.apply o.side o.product).2 ∧
    (Server.handle_decoder_event m (.Order id o)).2.tail =
      (m.apply o.side o.product).1.toList.map EncoderTaskControl.Match := by
  obtain ⟨sd, p⟩ := o
  cases sd <;>
    · simp only [Server.handle_decoder_event, Matcher.apply]
      rcases h : m.add_buy p with ⟨_ | t, m2⟩ <;>
        rcases h2 : m.add_sell p with ⟨_ | t2, m3⟩ <;>
        simp [h, h2]

/-- Claim C6: decoding a valid `SIDE:PRODUCT` line yields exactly that
side and product, and the parsers and printers are mutually inverse
between the five products (resp. two sides) and their wire tokens. -/
theorem codec_round_trip :
    (∀ p : Product, Product.from_str p.to_string = some p) ∧
    (∀ s : String, ∀ p : Product, Product.from_str s = some p → p.to_string = s) ∧
    (∀ sd : Side, Side.from_str sd.token = some sd) ∧
    (∀ s : String, ∀ sd : Side, Side.from_str s = some sd → sd.token = s) ∧
    (∀ sd : Side, ∀ p : Product,
      Order.from_str (sd.token ++ ":" ++ p.to_string) = some ⟨sd, p⟩) := by
  refine ⟨by decide, ?_, by decide, ?_, by decide⟩
  · intro s p h
    unfold Product.from_str at h
    split_ifs at h <;> simp_all [Product.to_string] <;> subst h <;> rfl
  · intro s sd h
    unfold Side.from_str at h
    split_ifs at h <;> simp_all [Side.token] <;> subst h <;> rfl

/-- Closed instance of the C6 inverse directions at the wire tokens. -/
theorem codec_round_trip_witness :
    Product.to_string .Apples = "APPLE" ∧ Side.token .Buy = "BUY" :=
  ⟨codec_round_trip.2.1 ("APPLE") .Apples (by decide),
    codec_round_trip.2.2.2.1 ("BUY") .Buy (by decide)⟩

/-- Claim C4 counterexample: a line with three colon-delimited tokens is
accepted by `Order::from_str` — the parser takes the first two tokens
and never examines anything past the second — whereas the claim
requires every line that is not exactly two tokens to fail. -/
theorem from_str_extra_tokens_accepted :
    Order.from_str ("BUY:APPLE:EXTRA") = some ⟨.Buy, .Apples⟩ := by decide

/-- Claim C4 (amended): decoding succeeds exactly when the line's FIRST
TWO colon-delimited tokens are a recognized side and a recognized
product — tokens after the second are ignored, so `SIDE:PRODUCT:junk`
also succeeds; it fails when the side or product token is missing or
unrecognized; and a failed line produces no event and leaves the
decoding of subsequent lines of the same client unchanged. -/
theorem from_str_amended :
    (∀ s : String,
      (Order.from_str s).isSome = true ↔
        ∃ side product rest, tokens s = side :: product :: rest ∧
          (Side.from_str side).isSome = true ∧
          (Product.from_str product).isSome = true) ∧
    (∀ s : String, ∀ o : Order, Order.from_str s = some o →
      ∃ side product rest, tokens s = side :: product :: rest ∧
        Side.from_str side = some o.side ∧
        Product.from_str product = some o.product) ∧
    (∀ line : String, ∀ ls : List String, Order.from_str line = none →
      Decoder.next_message_client (line :: ls) = Decoder.next_message_client ls) := by
  refine ⟨fun s => ?_, fun s o h => ?_, fun line ls h => ?_⟩
  · unfold Order.from_str
    rcases tokens s with _ | ⟨a, _ | ⟨b, r⟩⟩ <;> simp
    rcases hsd : Side.from_str a with _ | sd <;>
      rcases hpr : Product.from_str b with _ | pr <;>
      simp [hsd, hpr]
    exact ⟨a, b, ⟨rfl, rfl⟩, by simp [hsd], by simp [hpr]⟩
  · unfold Order.from_str at h
    rcases ht : tokens s with _ | ⟨a, _ | ⟨b, r⟩⟩ <;> rw [ht] at h <;>
        (try dsimp only at h)
    · cases h
    · cases h
    · rcases hsd : Side.from_str a with _ | sd <;> rw [hsd] at h <;>
          (try dsimp only at h)
      · cases h
      · rcases hpr : Product.from_str b with _ | pr <;> rw [hpr] at h <;>
            (try dsimp only at h)
        · cases h
        · injection h with h2
          subst h2
          exact ⟨a, b, r, rfl, hsd, hpr⟩
  · simp [Decoder.next_message_client, h]

/-- Closed instance of the amended C4: a malformed line is skipped
without affecting the decode of the following line. -/
theorem from_str_amended_witness :
    Order.from_str ("JUNK") = none ∧
    Decoder.next_message_client ["JUNK", "BUY:PEAR"] =
      Decoder.next_message_client ["BUY:PEAR"] :=
  ⟨by decide, from_str_amended.2.2 ("JUNK") ["BUY:PEAR"] (by decide)⟩

/-- Claim C9 counterexample: with cancellation already requested and a
decode-stage event ready in the same turn, the Acceptor's biased select
(whose decoder-event arm is listed before the cancellation arm) handles
the event instead of exiting — new work is performed after cancellation
is observable. -/
theorem select_event_beats_cancellation :
    Server.select_turn ⟨some (.Order ⟨7⟩ ⟨.Buy, .Apples⟩), true, false⟩ =
      .HandleEvent (.Order ⟨7⟩ ⟨.Buy, .Apples⟩) ∧
    Server.select_turn ⟨some (.Order ⟨7⟩ ⟨.Buy, .Apples⟩), true, false⟩ ≠ .Exit := by
  decide

/-- Claim C9 (amended): the cancellation check has priority over
accepting new connections — whenever cancellation has been requested
and no decode-stage event is ready, the turn exits cleanly without
accepting a waiting connection — but a ready decode-stage event is
handled before the cancellation check. -/
theorem select_cancel_priority :
    (∀ r : ServerLoopReady, r.cancelled = true → r.decoder_event = none →
      Server.select_turn r = .Exit) ∧
    (∀ r : ServerLoopReady, ∀ e : DecoderEvent, r.decoder_event = some e →
      Server.select_turn r = .HandleEvent e) := by
  constructor
  · rintro ⟨e, c, conn⟩ hc he
    simp only at hc he
    subst hc he
    simp [Server.select_turn]
  · rintro ⟨ev, c, conn⟩ e he
    simp only at he
    subst he
    simp [Server.select_turn]

/-- Closed instance of the amended C9: cancelled, no event ready, a
connection waiting — the turn exits instead of accepting. -/
theorem select_cancel_priority_witness :
    (ServerLoopReady.mk none true true).cancelled = true ∧
    (ServerLoopReady.mk none true true).decoder_event = none ∧
    Server.select_turn ⟨none, true, true⟩ = .Exit :=
  ⟨rfl, rfl, select_cancel_priority.1 ⟨none, true, true⟩ rfl rfl⟩

/-- UTF-8 byte length distributes over string concatenation. -/
theorem utf8ByteSize_append (a b : String) :
    (a ++ b).utf8ByteSize = a.utf8ByteSize + b.utf8ByteSize := by
  rcases a with ⟨da⟩
  rcases b with ⟨db⟩
  show String.utf8ByteSize ⟨da ++ db⟩ = _
  simp [String.utf8ByteSize_mk]

/-- Claim C7: the outbound encodings are exactly the fixed
newline-terminated strings — `LOGIN:` with the decimal client id,
`ACK:` and `TRADE:` with the product token — and the returned length is
exactly the byte length of that string; concretely `Login 1` encodes to
the eight bytes `LOGIN:1` plus newline, as the unit test asserts. -/
theorem encode_exact :
    (∀ id : Nat,
      (Login.encode ⟨⟨id⟩⟩).1 = "LOGIN:" ++ Nat.repr id ++ "\n" ∧
      (Login.encode ⟨⟨id⟩⟩).2 = ("LOGIN:" ++ Nat.repr id ++ "\n").utf8ByteSize) ∧
    (∀ p : Product,
      (OrderAck.encode ⟨p⟩).1 = "ACK:" ++ p.to_string ++ "\n" ∧
      (OrderAck.encode ⟨p⟩).2 = ("ACK:" ++ p.to_string ++ "\n").utf8ByteSize) ∧
    (∀ p : Product,
      (Trade.encode ⟨p⟩).1 = "TRADE:" ++ p.to_string ++ "\n" ∧
      (Trade.encode ⟨p⟩).2 = ("TRADE:" ++ p.to_string ++ "\n").utf8ByteSize) ∧
    Login.encode ⟨⟨1⟩⟩ = ("LOGIN:1\n", 8) := by
  refine ⟨fun id => ⟨?_, ?_⟩, by decide, by decide, by decide⟩
  · simp [Login.encode, writePiece, String.append_assoc]
  · simp [Login.encode, writePiece, utf8ByteSize_append]

/-- Claim C3 (Encode Stage modelled from the spec): handling a
`Match(trade)` control event writes the trade encoding to every
currently registered client — the originator included — exactly once
each (each registered client's written-line list is extended by exactly
one copy of the trade line, all else unchanged); concretely, three
clients connect, client 1 sends SELL:PEAR, client 2 sends BUY:PEAR
(both routed through the Acceptor and the matching engine), and clients
1, 2 and 3 each end up with exactly one `TRADE:PEAR` line, clients 1
and 2 additionally holding their own `ACK:PEAR`. -/
theorem match_broadcast :
    (∀ e : EncoderState, ∀ t : Match, ∀ i : Nat, ∀ c : ClientId × List String,
      e.clients[i]? = some c →
        (e.handle_message (.Match t)).1.clients[i]? =
          some (c.1, c.2 ++ [(Trade.encode ⟨t.product⟩).1])) ∧
    (broadcast_scenario.clients =
      [(⟨1⟩, ["ACK:PEAR\n", "TRADE:PEAR\n"]),
        (⟨2⟩, ["ACK:PEAR\n", "TRADE:PEAR\n"]),
        (⟨3⟩, ["TRADE:PEAR\n"])] ∧
      broadcast_scenario.clients.map (fun c => List.count ("TRADE:PEAR\n") c.2) =
        [1, 1, 1]) := by
  constructor
  · intro e t i c h
    simp only [EncoderState.handle_message]
    rw [List.getElem?_map, h]
    rfl
  · exact ⟨by decide, by decide⟩

/-- Closed instance of the C3 broadcast: the second of two registered
clients receives the trade line appended to its output. -/
theorem match_broadcast_witness :
    (EncoderState.mk [(⟨1⟩, []), (⟨2⟩, ["LOGIN:2\n"])]).clients[1]? =
      some (⟨2⟩, ["LOGIN:2\n"]) ∧
    ((EncoderState.mk [(⟨1⟩, []), (⟨2⟩, ["LOGIN:2\n"])]).handle_message
        (.Match ⟨.Pears⟩)).1.clients[1]? =
      some (⟨2⟩, ["LOGIN:2\n"] ++ [(Trade.encode ⟨.Pears⟩).1]) :=
  ⟨by decide,
    match_broadcast.1 ⟨[(⟨1⟩, []), (⟨2⟩, ["LOGIN:2\n"])]⟩ ⟨.Pears⟩ 1
      (⟨2⟩, ["LOGIN:2\n"]) (by decide)⟩

/-- Claim C8 (Encode Stage modelled from the spec): an `OrderAck`
addressed to a client id that is not registered in the write-side map
is reported as a single-operation failure, leaves the state unchanged,
and does not terminate the stage's loop — every subsequent control
message is still processed, producing exactly the state the remaining
messages alone would produce, with one more reported failure. -/
theorem unregistered_ack_nonfatal (e : EncoderState) (id : ClientId)
    (a : OrderAck) (rest : List EncoderTaskControl)
    (h : e.registered id = false) :
    EncoderState.run e (.OrderAck id a :: rest) =
      ((EncoderState.run e rest).1, (EncoderState.run e rest).2 + 1) := by
  simp only [EncoderState.run, EncoderState.handle_message, h]
  simp [Nat.add_comm]

/-- Closed instance of C8: the ack addressed to the unregistered client
2 is counted as a failure while the following `Match` is still
processed. -/
theorem unregistered_ack_nonfatal_witness :
    (EncoderState.mk [(⟨1⟩, [])]).registered ⟨2⟩ = false ∧
    EncoderState.run ⟨[(⟨1⟩, [])]⟩
        [.OrderAck ⟨2⟩ ⟨.Apples⟩, .Match ⟨.Apples⟩] =
      ((EncoderState.run ⟨[(⟨1⟩, [])]⟩ [.Match ⟨.Apples⟩]).1,
        (EncoderState.run ⟨[(⟨1⟩, [])]⟩ [.Match ⟨.Apples⟩]).2 + 1) :=
  ⟨by decide,
    unregistered_ack_nonfatal ⟨[(⟨1⟩, [])]⟩ ⟨2⟩ ⟨.Apples⟩ [.Match ⟨.Apples⟩] (by decide)⟩

end TcpServer
